import Mathlib

/-!
Verification development for the Frank-Wolfe structured-SVM solver
(`frankwolfe_ssvm.py`, class `FrankWolfeSSVM`).

The solver is embedded shallowly over exact rationals `ℚ` (the Python code
uses IEEE doubles; every claim below is about algebraic structure, control
flow or exception behaviour, none about rounding).  Dense numpy vectors of
dimension `D` become `Fin D → ℚ`.  Python exceptions become an explicit
error type threaded through the state-passing translation; since Python
exceptions leave already-mutated object attributes in place, the run
functions return the state reached so far *together with* an optional
error, rather than an `Except` that would discard the state.

External collaborators (the structured model's `find_constraint`,
`batch_psi` / `batch_loss_augmented_inference` / `batch_loss` aggregates,
the scoring predictions, `BaseSSVM._objective`, and the wall clock) are
parameters of the embedding, collected in the `Model` structure.  The
solver's own arithmetic and control flow are translated line by line from
the source.
-/

set_option maxHeartbeats 1000000

/-- Python-level exceptions relevant to the solver: `KeyboardInterrupt`
(cooperative cancellation, caught in `fit`), `IndexError` (empty-list
subscript), `AttributeError` (missing `testX_`/`testY_`/`trainY_`),
`ValueError` (constructor validation), `ZeroDivisionError` (the `%`
operator), and an opaque error raised by the structured-model
collaborator. -/
inductive PyErr where
  | keyboardInterrupt
  | indexError
  | attributeError
  | valueError
  | zeroDivisionError
  | modelError
  deriving DecidableEq, Repr

/-- Dense real vector of dimension `D` (a numpy array), over `ℚ`. -/
abbrev Vec (D : ℕ) := Fin D → ℚ

/-- Inner product `u.T.dot(v)`. -/
def dot {D : ℕ} (u v : Vec D) : ℚ := ∑ d, u d * v d

/-- Squared norm `np.sum(v ** 2)`. -/
def sumSq {D : ℕ} (v : Vec D) : ℚ := ∑ d, v d ^ 2

/-- The clamp `max(0.0, min(1.0, x))` applied to every line-search result. -/
def clamp01 (x : ℚ) : ℚ := max 0 (min 1 x)

/-- The additive denominator floor `eps = 1e-15` of both line searches. -/
def eps : ℚ := 1 / 10 ^ 15

/-- Solver configuration (`__init__` keyword arguments used by `fit`).
`sample_method` is not stored here: the visiting orders it induces are a
parameter of the run functions (see `runPasses`), and its construction-time
validation is modelled separately (`mkSolver`). -/
structure FWConfig where
  maxIter : ℕ
  C : ℚ
  tol : ℚ
  batchMode : Bool
  lineSearch : Bool
  checkDualEvery : ℕ
  doAveraging : Bool

/-- The external structured-model collaborator plus the remaining external
inputs of a `fit` run, for a dataset of `n` samples and feature dimension
`D`:
* `findConstraint i w` embeds `find_constraint(self.model, X[i], Y[i], w)`,
  keeping the two outputs the update rule reads: `delta_psi` and `loss`
  (`y_hat` and `slack` are unused by the solver).  It may raise: any model
  error propagates, and a `KeyboardInterrupt` delivered during this (the
  only blocking call of the inner loop) models cancellation.
* `gapOracle w` embeds the batch aggregates of `_calc_dual_gap`: the pair
  `(psi_gt - batch_psi(X, Y_hat), np.sum(batch_loss(Y, Y_hat)))` computed
  from the relaxed loss-augmented inference at `w`.
* `batchOracle w` embeds the analogous aggregates of `_frank_wolfe_batch`
  (there the loss aggregate is `np.mean(...)`).
* `testScoreFn w` / `trainScoreFn w` are the values of `self.score` on the
  held-out and training sets at weight `w` (the score computation itself
  calls the external `predict`/`loss`).
* `objectiveVal` is the value of the external `BaseSSVM._objective(X, Y)`
  appended by `fit`'s final bookkeeping.
* `elapsed` stands for the wall-clock differences `time() - timestamps_[0]`
  appended to `timestamps_` (their numeric value matters to no claim). -/
structure Model (n D : ℕ) where
  findConstraint : Fin n → Vec D → Except PyErr (Vec D × ℚ)
  gapOracle : Vec D → Vec D × ℚ
  batchOracle : Vec D → Except PyErr (Vec D × ℚ)
  testScoreFn : Vec D → ℚ
  trainScoreFn : Vec D → ℚ
  objectiveVal : ℚ
  elapsed : ℚ

/-- Mutable state of `_frank_wolfe_bc`: the local iterate `w`, the
per-sample decomposition `w_mat` / `l_mat`, the scalar accumulators `l`
and `l_avg`, the exported attribute `self.w` (`selfW`), and the global
step counter `k` spanning all passes. -/
structure BCState (n D : ℕ) where
  w : Vec D
  wMat : Fin n → Vec D
  lMat : Fin n → ℚ
  l : ℚ
  lAvg : ℚ
  selfW : Vec D
  k : ℕ

/-- State at entry of `_frank_wolfe_bc`: `w = self.w.copy()`,
`w_mat = np.zeros((n, D))`, `l_mat = np.zeros(n)`, `l_avg = l = 0.0`,
`k = 0`, with `w0` the value of the attribute `self.w`. -/
def initBC (n D : ℕ) (w0 : Vec D) : BCState n D :=
  ⟨w0, fun _ _ => 0, fun _ => 0, 0, 0, w0, 0⟩

/-- Closed-form line-search step of `_frank_wolfe_bc` (source lines
227-231): `w_diff = w_mat[i] - ws`, then
`(w_diff.T.dot(w) - C*n*(l_mat[i] - ls)) / (sum(w_diff**2) + eps)`,
clamped by `max(0.0, min(1.0, .))`. -/
def gammaBC {D : ℕ} (C nq : ℚ) (wMatI ws w : Vec D) (lMatI ls : ℚ) : ℚ :=
  let wDiff : Vec D := fun d => wMatI d - ws d
  clamp01 ((dot wDiff w - C * nq * (lMatI - ls)) / (sumSq wDiff + eps))

/-- The batch dual gap of `_frank_wolfe_batch` (source line 166):
`1/(C*n) * w_diff.T.dot(w) - l + ls` with `w_diff = w - ws`. -/
def batchDualGap {D : ℕ} (C nq : ℚ) (w ws : Vec D) (l ls : ℚ) : ℚ :=
  (1 / (C * nq)) * dot (fun d => w d - ws d) w - l + ls

/-- Closed-form line-search step of `_frank_wolfe_batch` (source lines
169-172): `dual_gap / (sum(w_diff**2)/(C*n) + eps)`, clamped to `[0,1]`. -/
def gammaBatch {D : ℕ} (C nq : ℚ) (w ws : Vec D) (l ls : ℚ) : ℚ :=
  clamp01 (batchDualGap C nq w ws l ls /
    (sumSq (fun d => w d - ws d) / (C * nq) + eps))

/-- One visit of sample `i` in the inner loop of `_frank_wolfe_bc`
(source lines 219-249): oracle call, `ws = delta_psi * C`,
`ls = loss / n`, step size by line search or the schedule
`2n/(k+2n)`, the subtract-old / blend / add-new update of `w`,`w_mat`
and `l`,`l_mat`, the optional averaging update of `self.w` with
`rho = 2/(k+2)`, and `k += 1`.  If the oracle raises, the state is
returned unchanged together with the error. -/
def stepBC {n D : ℕ} (M : Model n D) (cfg : FWConfig) (i : Fin n)
    (s : BCState n D) : BCState n D × Option PyErr :=
  match M.findConstraint i s.w with
  | Except.error e => (s, some e)
  | Except.ok (dpsi, loss) =>
      let ws : Vec D := fun d => dpsi d * cfg.C
      let ls : ℚ := loss / (n : ℚ)
      let gamma : ℚ :=
        if cfg.lineSearch then gammaBC cfg.C (n : ℚ) (s.wMat i) ws s.w (s.lMat i) ls
        else 2 * (n : ℚ) / ((s.k : ℚ) + 2 * (n : ℚ))
      let newRow : Vec D := fun d => (1 - gamma) * s.wMat i d + gamma * ws d
      let w' : Vec D := fun d => s.w d - s.wMat i d + newRow d
      let newLi : ℚ := (1 - gamma) * s.lMat i + gamma * ls
      let l' : ℚ := s.l - s.lMat i + newLi
      let rho : ℚ := 2 / ((s.k : ℚ) + 2)
      let selfW' : Vec D :=
        if cfg.doAveraging then fun d => (1 - rho) * s.selfW d + rho * w' d else w'
      let lAvg' : ℚ := if cfg.doAveraging then (1 - rho) * s.lAvg + rho * l' else s.lAvg
      (⟨w', Function.update s.wMat i newRow, Function.update s.lMat i newLi,
        l', lAvg', selfW', s.k + 1⟩, none)

/-- The inner `for j in range(n_samples)` loop of one pass, visiting the
samples in the given order (`perm`).  Stops at the first error, returning
the state reached so far. -/
def runInnerBC {n D : ℕ} (M : Model n D) (cfg : FWConfig) :
    List (Fin n) → BCState n D → BCState n D × Option PyErr
  | [], s => (s, none)
  | i :: rest, s =>
      match stepBC M cfg i s with
      | (s', some e) => (s', some e)
      | (s', none) => runInnerBC M cfg rest s'

/-- The append-only history attributes reset by `fit`:
`objective_curve_`, `primal_objective_curve_`, `timestamps_`,
`train_score_`, `test_score_`. -/
structure Hist where
  objectiveCurve : List ℚ
  primalCurve : List ℚ
  timestamps : List ℚ
  trainScore : List ℚ
  testScore : List ℚ
  deriving DecidableEq, Repr

/-- History right after `fit`'s resets: empty curves and
`timestamps_ = [time()]` (the start-of-run stamp, represented by `0`). -/
def initHist : Hist := ⟨[], [], [0], [], []⟩

/-- Solver state during a `fit` run: block-coordinate state, history
logs, and whether `setTest` has been called (i.e. whether the attributes
`testX_`, `testY_`, `trainY_` exist on the instance). -/
structure FWState (n D : ℕ) where
  bc : BCState n D
  hist : Hist
  hasTest : Bool

/-- The persistent attributes of a `FrankWolfeSSVM` instance between
`fit` calls: the (possibly absent) attribute `self.w`, the `setTest`
attributes, and the history of the last run. -/
structure FWObj (D : ℕ) where
  w : Option (Vec D)
  hasTest : Bool
  hist : Hist

/-- Python's `%` operator on the pass counter: raises
`ZeroDivisionError` on a zero divisor. -/
def pyMod (a b : ℕ) : Except PyErr ℕ :=
  if b = 0 then Except.error PyErr.zeroDivisionError else Except.ok (a % b)

/-- The guard `(self.check_dual_every != 0) and (p % self.check_dual_every == 0)`
of source line 253.  Python's `and` short-circuits, so the modulo is
evaluated only when the left conjunct is true. -/
def checkGuard (checkDualEvery p : ℕ) : Except PyErr Bool :=
  if checkDualEvery ≠ 0 then
    match pyMod p checkDualEvery with
    | Except.error e => Except.error e
    | Except.ok m => Except.ok (m == 0)
  else Except.ok false

/-- `_calc_dual_gap(X, Y, l)` (source lines 127-144): batch aggregates
from the relaxed loss-augmented inference at `self.w`, then
`l = l * n * C`, `dual_val = -0.5*||w||^2 + l`,
`dual_gap = (w - ws).T.dot(w) - l + ls*C`, `primal_val = dual_val +
dual_gap`; appends `primal_val`, `dual_val` and a timestamp to the
history and returns `(dual_val, dual_gap, primal_val)`. -/
def calcDualGap {n D : ℕ} (M : Model n D) (cfg : FWConfig) (st : FWState n D) :
    FWState n D × ℚ × ℚ × ℚ :=
  let res := M.gapOracle st.bc.selfW
  let dpsi := res.1
  let ls := res.2
  let ws : Vec D := fun d => dpsi d * cfg.C
  let lscaled : ℚ := st.bc.l * (n : ℚ) * cfg.C
  let dualVal : ℚ := -(1 / 2) * sumSq st.bc.selfW + lscaled
  let dualGap : ℚ := dot (fun d => st.bc.selfW d - ws d) st.bc.selfW - lscaled + ls * cfg.C
  let primalVal : ℚ := dualVal + dualGap
  ({ st with hist := { st.hist with
      primalCurve := st.hist.primalCurve ++ [primalVal],
      objectiveCurve := st.hist.objectiveCurve ++ [dualVal],
      timestamps := st.hist.timestamps ++ [M.elapsed] } },
   (dualVal, dualGap, primalVal))

/-- The body of the periodic convergence check of `_frank_wolfe_bc`
(source lines 254-266), run when `checkGuard` is true: call
`_calc_dual_gap` (which itself appends to the history), append its
`primal_val`, `dual_val` and a timestamp once more (lines 255-257), then
score against the held-out set (`self.testX_`: an `AttributeError` if
`setTest` was never called) and the training set, append both scores,
and report whether `dual_gap < tol` requests early termination. -/
def doCheck {n D : ℕ} (M : Model n D) (cfg : FWConfig) (st : FWState n D) :
    FWState n D × Option PyErr × Bool :=
  let r := calcDualGap M cfg st
  let st1 := r.1
  let dualVal := r.2.1
  let dualGap := r.2.2.1
  let primalVal := r.2.2.2
  let st2 := { st1 with hist := { st1.hist with
      primalCurve := st1.hist.primalCurve ++ [primalVal],
      objectiveCurve := st1.hist.objectiveCurve ++ [dualVal],
      timestamps := st1.hist.timestamps ++ [M.elapsed] } }
  if st2.hasTest then
    let testScoreVal := M.testScoreFn st2.bc.selfW
    let trainScoreVal := M.trainScoreFn st2.bc.selfW
    let st3 := { st2 with hist := { st2.hist with
        trainScore := st2.hist.trainScore ++ [trainScoreVal],
        testScore := st2.hist.testScore ++ [testScoreVal] } }
    (st3, none, decide (dualGap < cfg.tol))
  else (st2, some PyErr.attributeError, false)

/-- The outer `for p in range(max_iter)` loop of `_frank_wolfe_bc`
(source lines 208-266).  `ord p` is the visiting order of pass `p`
drawn by the sampling policy (`seq`: the identity order; `perm`: a
random permutation; `rnd`: `n` draws with replacement — all are lists
of `n` sample indices, so quantifying over `ord` covers every policy
and every random draw).  Recursion is on the remaining number of
passes (`fuel`, initially `max_iter`) with `p` the pass index. -/
def runPasses {n D : ℕ} (M : Model n D) (cfg : FWConfig) (ord : ℕ → List (Fin n)) :
    ℕ → ℕ → FWState n D → FWState n D × Option PyErr
  | 0, _, st => (st, none)
  | fuel + 1, p, st =>
      match runInnerBC M cfg (ord p) st.bc with
      | (bc', some e) => ({ st with bc := bc' }, some e)
      | (bc', none) =>
          let st1 := { st with bc := bc' }
          match checkGuard cfg.checkDualEvery p with
          | Except.error e => (st1, some e)
          | Except.ok false => runPasses M cfg ord fuel (p + 1) st1
          | Except.ok true =>
              match doCheck M cfg st1 with
              | (st2, some e, _) => (st2, some e)
              | (st2, none, true) => (st2, none)
              | (st2, none, false) => runPasses M cfg ord fuel (p + 1) st2

/-- One iteration of `_frank_wolfe_batch` (source lines 158-192) on the
pair `(self.w, l)`: batch oracle, `ws = dpsi * C`, the batch dual gap,
step size by line search or `2/(k+2)`, the convex-combination update of
`w` and `l`, and the early-stopping signal `dual_gap < tol` (tested
after the update, as in the source). -/
def stepBatch {n D : ℕ} (M : Model n D) (cfg : FWConfig) (k : ℕ)
    (s : Vec D × ℚ) : (Vec D × ℚ) × Option PyErr × Bool :=
  match M.batchOracle s.1 with
  | Except.error e => (s, some e, false)
  | Except.ok (dpsi, ls) =>
      let ws : Vec D := fun d => dpsi d * cfg.C
      let dualGap := batchDualGap cfg.C (n : ℚ) s.1 ws s.2 ls
      let gamma := if cfg.lineSearch then gammaBatch cfg.C (n : ℚ) s.1 ws s.2 ls
                   else 2 / ((k : ℚ) + 2)
      let w' : Vec D := fun d => (1 - gamma) * s.1 d + gamma * ws d
      let l' := (1 - gamma) * s.2 + gamma * ls
      ((w', l'), none, decide (dualGap < cfg.tol))

/-- The `for k in range(max_iter)` loop of `_frank_wolfe_batch`. -/
def runBatch {n D : ℕ} (M : Model n D) (cfg : FWConfig) :
    ℕ → ℕ → Vec D × ℚ → (Vec D × ℚ) × Option PyErr
  | 0, _, s => (s, none)
  | fuel + 1, k, s =>
      match stepBatch M cfg k s with
      | (s', some e, _) => (s', some e)
      | (s', none, true) => (s', none)
      | (s', none, false) => runBatch M cfg fuel (k + 1) s'

/-- The dispatch of `fit` (source lines 325-328): batch mode runs
`_frank_wolfe_batch` on `self.w` directly (starting from `l = 0.0` and
touching no history), otherwise `_frank_wolfe_bc` runs. -/
def runDispatch {n D : ℕ} (M : Model n D) (cfg : FWConfig)
    (ord : ℕ → List (Fin n)) (st : FWState n D) : FWState n D × Option PyErr :=
  if cfg.batchMode then
    let r := runBatch M cfg cfg.maxIter 0 (st.bc.selfW, 0)
    ({ st with bc := { st.bc with selfW := r.1.1 } }, r.2)
  else
    runPasses M cfg ord cfg.maxIter 0 st

/-- `self.w = getattr(self, "w", np.zeros(self.model.size_psi))`
(source line 323): the weight the loop starts from — the previous value
of the attribute whenever it exists, a fresh zero vector only when it
does not. -/
def fitStartW {D : ℕ} (obj : FWObj D) : Vec D := obj.w.getD (fun _ => 0)

/-- The solver state right after `fit`'s initialization (source lines
315-323): freshly reset history and a fresh block-coordinate state
starting from `fitStartW obj`. -/
def fitInitState (n : ℕ) {D : ℕ} (obj : FWObj D) : FWState n D :=
  ⟨initBC n D (fitStartW obj), initHist, obj.hasTest⟩

/-- `fit`'s final bookkeeping (source lines 333-335): append a
timestamp, append the external `_objective(X, Y)` value to the primal
curve, then duplicate the last dual value via
`objective_curve_.append(objective_curve_[-1])` — a subscript that
raises `IndexError` when the objective curve is empty (in which case
the duplicate is not appended but the two earlier appends stay). -/
def finalizeFit {n D : ℕ} (M : Model n D) (st : FWState n D) :
    FWObj D × Option PyErr :=
  let h1 := { st.hist with
      timestamps := st.hist.timestamps ++ [M.elapsed],
      primalCurve := st.hist.primalCurve ++ [M.objectiveVal] }
  match h1.objectiveCurve.getLast? with
  | none => (⟨some st.bc.selfW, st.hasTest, h1⟩, some PyErr.indexError)
  | some d =>
      (⟨some st.bc.selfW, st.hasTest,
        { h1 with objectiveCurve := h1.objectiveCurve ++ [d] }⟩, none)

/-- `fit(X, Y)` (source lines 296-339): initialize (the external
`model.initialize` is assumed to succeed), reset the logs, set
`self.w` by `getattr`, dispatch to the batch or block-coordinate loop
inside `try ... except KeyboardInterrupt: pass`, then run the final
bookkeeping.  Any non-`KeyboardInterrupt` error propagates, leaving the
attributes (in particular `self.w`) at the values already assigned. -/
def fitFW {n D : ℕ} (M : Model n D) (cfg : FWConfig) (ord : ℕ → List (Fin n))
    (obj : FWObj D) : FWObj D × Option PyErr :=
  let r := runDispatch M cfg ord (fitInitState n obj)
  match r.2 with
  | none => finalizeFit M r.1
  | some PyErr.keyboardInterrupt => finalizeFit M r.1
  | some e => (⟨some r.1.bc.selfW, r.1.hasTest, r.1.hist⟩, some e)

/-- The sampling policies accepted by `__init__` (source line 113). -/
def validSampleMethods : List String := ["perm", "rnd", "seq"]

/-- Constructor-time validation of `__init__` (source lines 113-114),
performed before any data is seen: an unrecognized `sample_method`
raises `ValueError`; otherwise the configuration is stored. -/
def mkSolver (sampleMethod : String) (cfg : FWConfig) :
    Except PyErr (String × FWConfig) :=
  if sampleMethod ∈ validSampleMethods then Except.ok (sampleMethod, cfg)
  else Except.error PyErr.valueError

/-- The decomposition invariant of spec section 3:
`w == Σ_i w_mat[i]` (coordinatewise) and `l == Σ_i l_mat[i]`. -/
def SumInv {n D : ℕ} (s : BCState n D) : Prop :=
  (∀ d, ∑ i, s.wMat i d = s.w d) ∧ (∑ i, s.lMat i = s.l)

/-- An oracle that never raises (all `find_constraint` calls succeed). -/
def OracleTotal {n D : ℕ} (M : Model n D) : Prop :=
  ∀ i w, ∃ r, M.findConstraint i w = Except.ok r

/-! Concrete instances (dataset size `n = 1`, feature dimension `D = 1`)
used by the closed counterexamples and witnesses below. -/

/-- The all-ones vector in dimension 1. -/
def vOne : Vec 1 := fun _ => 1

/-- A gap oracle whose batch aggregates are zero. -/
def gapZero : Vec 1 → Vec 1 × ℚ := fun _ => (fun _ => 0, 0)

/-- A model whose oracle always succeeds with `delta_psi = 1`, `loss = 1`. -/
def okModel : Model 1 1 :=
  ⟨fun _ _ => Except.ok (vOne, 1), gapZero, fun _ => Except.ok (vOne, 1),
   fun _ => 0, fun _ => 0, 0, 0⟩

/-- A model whose oracle succeeds (as `okModel`) while the iterate is still
zero and raises `e` on any later visit: `e = modelError` is a collaborator
failing mid-training, `e = keyboardInterrupt` is a cancellation delivered
mid-pass after some completed steps. -/
def haltingModel (e : PyErr) : Model 1 1 :=
  ⟨fun _ w => if w 0 = 0 then Except.ok (vOne, 1) else Except.error e,
   gapZero, fun _ => Except.ok (vOne, 1), fun _ => 0, fun _ => 0, 0, 0⟩

/-- A model whose very first oracle call is hit by a `KeyboardInterrupt`:
cancellation mid-pass on the first pass, before any completed step. -/
def cancelModel : Model 1 1 :=
  ⟨fun _ _ => Except.error PyErr.keyboardInterrupt, gapZero,
   fun _ => Except.error PyErr.keyboardInterrupt, fun _ => 0, fun _ => 0, 0, 0⟩

/-- Base concrete configuration: two passes, `C = 1`, `tol = 0`,
block-coordinate mode, no line search, `check_dual_every = 0`, no
averaging. -/
def cfgBase : FWConfig := ⟨2, 1, 0, false, false, 0, false⟩

/-- One pass with a convergence check on it. -/
def cfgCheck : FWConfig := { cfgBase with maxIter := 1, checkDualEvery := 1 }

/-- Two passes with a convergence check on every pass. -/
def cfgEvery : FWConfig := { cfgBase with checkDualEvery := 1 }

/-- The sequential (`seq`) visiting order for `n = 1`. -/
def ordSeq : ℕ → List (Fin 1) := fun _ => [0]

/-- A freshly constructed instance: no `w` attribute, `setTest` not called. -/
def objFresh : FWObj 1 := ⟨none, false, initHist⟩

/-- A freshly constructed instance on which `setTest` has been called. -/
def objTest : FWObj 1 := ⟨none, true, initHist⟩

/-! Helper lemmas. -/

lemma sum_update_eq {n : ℕ} (f : Fin n → ℚ) (i : Fin n) (b : ℚ) :
    ∑ j, Function.update f i b j = (∑ j, f j) - f i + b := by
  rw [Finset.sum_update_of_mem (Finset.mem_univ i),
    Finset.sdiff_singleton_eq_erase, Finset.sum_erase_eq_sub (Finset.mem_univ i)]
  ring

lemma sum_update_row_eq {n D : ℕ} (W : Fin n → Vec D) (i : Fin n) (row : Vec D)
    (d : Fin D) :
    ∑ j, Function.update W i row j d = (∑ j, W j d) - W i d + row d := by
  have h : ∀ j, Function.update W i row j d
      = Function.update (fun j' => W j' d) i (row d) j := by
    intro j
    rcases eq_or_ne j i with rfl | hne
    · simp
    · simp [Function.update_apply, hne]
  rw [Finset.sum_congr rfl fun j _ => h j, sum_update_eq]

lemma stepBC_SumInv {n D : ℕ} (M : Model n D) (cfg : FWConfig) (i : Fin n)
    (s : BCState n D) (h : SumInv s) : SumInv (stepBC M cfg i s).1 := by
  rcases hf : M.findConstraint i s.w with e | ⟨dpsi, loss⟩
  · simpa [stepBC, hf] using h
  · refine ⟨fun d => ?_, ?_⟩
    · simp only [stepBC, hf]
      rw [sum_update_row_eq, h.1 d]
    · simp only [stepBC, hf]
      rw [sum_update_eq, h.2]

lemma runInnerBC_SumInv {n D : ℕ} (M : Model n D) (cfg : FWConfig) :
    ∀ (ord : List (Fin n)) (s : BCState n D),
      SumInv s → SumInv (runInnerBC M cfg ord s).1
  | [], s, h => by simpa [runInnerBC] using h
  | i :: rest, s, h => by
      have h' := stepBC_SumInv M cfg i s h
      rcases hs : stepBC M cfg i s with ⟨s', err⟩
      rw [hs] at h'
      rcases err with _ | e
      · simpa [runInnerBC, hs] using runInnerBC_SumInv M cfg rest s' h'
      · simpa [runInnerBC, hs] using h'

lemma clamp01_nonneg (x : ℚ) : 0 ≤ clamp01 x := le_max_left 0 _

lemma clamp01_le_one (x : ℚ) : clamp01 x ≤ 1 :=
  max_le (by norm_num) (min_le_left 1 x)

/-! Claim theorems. -/

/-- C1: in the block-coordinate inner loop, every sample visit's
subtract-old / blend / add-new update preserves the decomposition
invariant `w = Σ_i w_mat[i]`, `l = Σ_i l_mat[i]` exactly (over `ℚ`),
for any visiting order (hence for every pass, every sampling policy and
every random draw), any step-size rule (line search on or off), and
also when a visit stops early on an oracle error.  Since a cold-start
`fit` enters the loop with `w = 0` and `w_mat = 0, l_mat = 0, l = 0`,
the invariant holds after every inner-loop step of such a run. -/
theorem bc_inner_loop_sum_invariant {n D : ℕ} (M : Model n D) (cfg : FWConfig)
    (ord : List (Fin n)) (s : BCState n D) (h : SumInv s) :
    SumInv (runInnerBC M cfg ord s).1 :=
  runInnerBC_SumInv M cfg ord s h

/-- Witness for C1: the cold-start entry state (as built by `fit` with no
pre-existing `w`) satisfies the invariant, and so does the state after two
concrete steps. -/
theorem bc_inner_loop_sum_invariant_witness :
    SumInv (runInnerBC okModel cfgBase [0, 0] (initBC 1 1 (fun _ => 0))).1 :=
  bc_inner_loop_sum_invariant okModel cfgBase [0, 0] (initBC 1 1 (fun _ => 0))
    (by refine ⟨fun d => ?_, ?_⟩ <;> simp [initBC])

/-- C2: both closed-form line-search step sizes — the per-sample one of
`_frank_wolfe_bc` and the batch one of `_frank_wolfe_batch` — lie in
`[0, 1]` for arbitrary finite inputs: the additive floor `eps = 1e-15`
keeps the denominator meaningful near zero and the final
`max(0.0, min(1.0, .))` clamp guarantees the interval regardless of the
magnitude of the quotient. -/
theorem line_search_gamma_in_unit_interval {D : ℕ} (C nq : ℚ)
    (wMatI ws w : Vec D) (lMatI ls l : ℚ) :
    (0 ≤ gammaBC C nq wMatI ws w lMatI ls ∧ gammaBC C nq wMatI ws w lMatI ls ≤ 1) ∧
    (0 ≤ gammaBatch C nq w ws l ls ∧ gammaBatch C nq w ws l ls ≤ 1) :=
  ⟨⟨clamp01_nonneg _, clamp01_le_one _⟩, ⟨clamp01_nonneg _, clamp01_le_one _⟩⟩

lemma finalizeFit_w {n D : ℕ} (M : Model n D) (st : FWState n D) :
    (finalizeFit M st).1.w = some st.bc.selfW := by
  unfold finalizeFit
  rcases hL : st.hist.objectiveCurve.getLast? with _ | d <;> simp [hL]

lemma fitFW_w_eq {n D : ℕ} (M : Model n D) (cfg : FWConfig)
    (ord : ℕ → List (Fin n)) (obj : FWObj D) :
    (fitFW M cfg ord obj).1.w
      = some (runDispatch M cfg ord (fitInitState n obj)).1.bc.selfW := by
  unfold fitFW
  rcases hr : (runDispatch M cfg ord (fitInitState n obj)).2 with _ | e
  · simp [hr, finalizeFit_w]
  · rcases e <;> simp [hr, finalizeFit_w]

lemma fitFW_propagates {n D : ℕ} (M : Model n D) (cfg : FWConfig)
    (ord : ℕ → List (Fin n)) (obj : FWObj D) (e : PyErr)
    (he : (runDispatch M cfg ord (fitInitState n obj)).2 = some e)
    (hne : e ≠ PyErr.keyboardInterrupt) :
    (fitFW M cfg ord obj).2 = some e := by
  unfold fitFW
  rcases e <;> first
    | exact absurd rfl hne
    | simp [he]

lemma fitFW_ki {n D : ℕ} (M : Model n D) (cfg : FWConfig)
    (ord : ℕ → List (Fin n)) (obj : FWObj D)
    (he : (runDispatch M cfg ord (fitInitState n obj)).2
        = some PyErr.keyboardInterrupt)
    (hne : (runDispatch M cfg ord (fitInitState n obj)).1.hist.objectiveCurve ≠ []) :
    (fitFW M cfg ord obj).2 = none := by
  unfold fitFW
  simp only [he]
  obtain ⟨d, hd⟩ := Option.isSome_iff_exists.mp (List.getLast?_isSome.mpr hne)
  unfold finalizeFit
  simp [hd]

/-- C3 counterexample: on a concrete dataset and configuration,
`fit` with `max_iter = 0` does *not* return without exception — the
final bookkeeping `objective_curve_.append(objective_curve_[-1])`
subscripts the still-empty objective curve and raises `IndexError`. -/
theorem fit_max_iter_zero_raises :
    (fitFW okModel { cfgBase with maxIter := 0 } ordSeq objFresh).2
      = some PyErr.indexError := by
  with_unfolding_all rfl

/-- C3 amended: for every dataset, model and configuration with
`max_iter = 0` (batch or block-coordinate, any other settings), a
cold-start `fit` performs no optimization step, so the weight vector is
left at its cold-start all-zero value — but `fit` does not return
cleanly: the final bookkeeping raises `IndexError` when it duplicates
the last dual value of the empty objective curve. -/
theorem fit_max_iter_zero_amended {n D : ℕ} (M : Model n D) (Cq tol : ℚ)
    (bm ls cda : Bool) (cde : ℕ) (ord : ℕ → List (Fin n)) (ht : Bool) (hi : Hist) :
    (fitFW M ⟨0, Cq, tol, bm, ls, cde, cda⟩ ord ⟨none, ht, hi⟩).2
        = some PyErr.indexError ∧
      (fitFW M ⟨0, Cq, tol, bm, ls, cde, cda⟩ ord ⟨none, ht, hi⟩).1.w
        = some (fun _ => (0 : ℚ)) := by
  cases bm <;>
    simp [fitFW, runDispatch, runPasses, runBatch, fitInitState, initBC,
      fitStartW, initHist, finalizeFit]

/-- C4 counterexample: a cancellation delivered mid-pass on the first
pass (during the very first oracle call) is caught by `fit`, but the
subsequent final bookkeeping then raises `IndexError` on the empty
objective curve, so `fit` does not return normally. -/
theorem fit_cancel_before_first_check_raises :
    (fitFW cancelModel { cfgBase with maxIter := 1 } ordSeq objTest).2
      = some PyErr.indexError := by
  with_unfolding_all rfl

/-- C4 amended: a cancellation delivered during fitting makes `fit`
return normally — with the weight vector reflecting exactly the steps
completed before the interrupt — provided at least one convergence
check has already appended a dual value to the objective curve; when
the interrupt arrives before the first completed check, the final
bookkeeping raises `IndexError` instead (see the counterexample). -/
theorem fit_cancel_after_check_returns_normally {n D : ℕ} (M : Model n D)
    (cfg : FWConfig) (ord : ℕ → List (Fin n)) (obj : FWObj D)
    (he : (runDispatch M cfg ord (fitInitState n obj)).2
        = some PyErr.keyboardInterrupt)
    (hne : (runDispatch M cfg ord (fitInitState n obj)).1.hist.objectiveCurve ≠ []) :
    (fitFW M cfg ord obj).2 = none ∧
      (fitFW M cfg ord obj).1.w
        = some (runDispatch M cfg ord (fitInitState n obj)).1.bc.selfW :=
  ⟨fitFW_ki M cfg ord obj he hne, fitFW_w_eq M cfg ord obj⟩

/-- Witness for the amended C4: a run whose first pass completes (with
its convergence check) and whose second pass is cancelled. -/
theorem fit_cancel_after_check_returns_normally_witness :
    (fitFW (haltingModel PyErr.keyboardInterrupt) cfgEvery ordSeq objTest).2
        = none ∧
      (fitFW (haltingModel PyErr.keyboardInterrupt) cfgEvery ordSeq objTest).1.w
        = some (runDispatch (haltingModel PyErr.keyboardInterrupt) cfgEvery ordSeq
            (fitInitState 1 objTest)).1.bc.selfW :=
  fit_cancel_after_check_returns_normally _ _ _ _ (by with_unfolding_all rfl)
    (by with_unfolding_all decide)

/-- C5 counterexample: a collaborator error raised on the second pass
propagates out of `fit`, yet the weight vector is *not* the value it
had at the start of the call (zero); it reflects the completed first
step (`w = 1`). -/
theorem fit_oracle_error_leaves_w_modified :
    (fitFW (haltingModel PyErr.modelError) cfgBase ordSeq objFresh).2
        = some PyErr.modelError ∧
      ((fitFW (haltingModel PyErr.modelError) cfgBase ordSeq objFresh).1.w.getD
          (fun _ => 0)) 0 ≠ 0 := by
  constructor
  · with_unfolding_all rfl
  · with_unfolding_all decide

/-- C5 amended: any non-cancellation error (in particular one raised by
the structured-model collaborator mid-training) propagates out of `fit`
unmodified, and the weight vector is left at the value reached by the
last completed inner step before the error — all completed updates
persist; `w` is not rolled back to its value at the start of the call. -/
theorem fit_oracle_error_propagates_with_partial_w {n D : ℕ} (M : Model n D)
    (cfg : FWConfig) (ord : ℕ → List (Fin n)) (obj : FWObj D) (e : PyErr)
    (he : (runDispatch M cfg ord (fitInitState n obj)).2 = some e)
    (hne : e ≠ PyErr.keyboardInterrupt) :
    (fitFW M cfg ord obj).2 = some e ∧
      (fitFW M cfg ord obj).1.w
        = some (runDispatch M cfg ord (fitInitState n obj)).1.bc.selfW :=
  ⟨fitFW_propagates M cfg ord obj e he hne, fitFW_w_eq M cfg ord obj⟩

/-- Witness for the amended C5 at the concrete mid-training failure. -/
theorem fit_oracle_error_propagates_with_partial_w_witness :
    (fitFW (haltingModel PyErr.modelError) cfgBase ordSeq objFresh).2
        = some PyErr.modelError ∧
      (fitFW (haltingModel PyErr.modelError) cfgBase ordSeq objFresh).1.w
        = some (runDispatch (haltingModel PyErr.modelError) cfgBase ordSeq
            (fitInitState 1 objFresh)).1.bc.selfW :=
  fit_oracle_error_propagates_with_partial_w _ _ _ _ _
    (by with_unfolding_all rfl) (by decide)

/-- C6 counterexample: after one successful cold-start `fit` (which
learns `w = 1`), a second `fit` call starts from the previous result
`1`, not from a fresh zero vector — no explicit warm-start request
exists or is needed. -/
theorem second_fit_starts_from_previous_w :
    (fitFW okModel cfgCheck ordSeq objTest).2 = none ∧
      fitStartW (fitFW okModel cfgCheck ordSeq objTest).1 0 = 1 ∧ (1 : ℚ) ≠ 0 := by
  refine ⟨?_, ?_, one_ne_zero⟩
  · with_unfolding_all rfl
  · with_unfolding_all rfl

/-- C6 amended: mutable solver state is allocated fresh at each `fit`
call, but the weight vector *always* persists across successive `fit`
calls — `getattr(self, "w", zeros)` warm-starts unconditionally, with
no explicit request mechanism: only an instance that has never fitted
(no `w` attribute) starts from zero, and after any `fit` call (normal
or erroring) the next call starts exactly from the stored result. -/
theorem fit_unconditional_warm_start {n D : ℕ} (M : Model n D) (cfg : FWConfig)
    (ord : ℕ → List (Fin n)) (obj : FWObj D) (ht : Bool) (hi : Hist) :
    fitStartW (⟨none, ht, hi⟩ : FWObj D) = (fun _ => 0) ∧
      ∃ v, (fitFW M cfg ord obj).1.w = some v ∧
        fitStartW (fitFW M cfg ord obj).1 = v := by
  refine ⟨rfl, ⟨(runDispatch M cfg ord (fitInitState n obj)).1.bc.selfW,
    fitFW_w_eq M cfg ord obj, ?_⟩⟩
  simp [fitStartW, fitFW_w_eq M cfg ord obj]

/-- C7 counterexample: one pass with a convergence check on it leaves
*two* dual values on the objective curve — `_calc_dual_gap` appends its
results (source lines 141-143) and the caller appends them again
(source lines 255-257) — not the single value the claim states. -/
theorem dual_gap_check_appends_twice :
    (runPasses okModel cfgCheck ordSeq 1 0
        (fitInitState 1 objTest)).1.hist.objectiveCurve.length = 2 ∧
      (2 : ℕ) ≠ 1 := by
  constructor
  · with_unfolding_all rfl
  · decide

/-- C7 amended: each periodic convergence check appends the monitor's
outputs *twice* — once inside `_calc_dual_gap` and once in the calling
loop: per check, exactly two dual values, two primal values and two
timestamps are appended (plus one training score and one held-out
score), and the check itself raises nothing when held-out data is
registered. -/
theorem dual_gap_check_append_counts {n D : ℕ} (M : Model n D) (cfg : FWConfig)
    (bc : BCState n D) (h : Hist) :
    (doCheck M cfg ⟨bc, h, true⟩).1.hist.objectiveCurve.length
        = h.objectiveCurve.length + 2 ∧
      (doCheck M cfg ⟨bc, h, true⟩).1.hist.primalCurve.length
        = h.primalCurve.length + 2 ∧
      (doCheck M cfg ⟨bc, h, true⟩).1.hist.timestamps.length
        = h.timestamps.length + 2 ∧
      (doCheck M cfg ⟨bc, h, true⟩).1.hist.trainScore.length
        = h.trainScore.length + 1 ∧
      (doCheck M cfg ⟨bc, h, true⟩).1.hist.testScore.length
        = h.testScore.length + 1 ∧
      (doCheck M cfg ⟨bc, h, true⟩).2.1 = none := by
  refine ⟨?_, ?_, ?_, ?_, ?_, ?_⟩ <;> simp [doCheck, calcDualGap]

/-- C8: the sampling policy is validated at construction time, before
any data is seen: construction succeeds exactly for the recognized
policies `perm`, `rnd`, `seq`, and raises `ValueError` for every other
string. -/
theorem sample_method_validated_at_construction (s : String) (cfg : FWConfig) :
    ((∃ r, mkSolver s cfg = Except.ok r) ↔ s ∈ validSampleMethods) ∧
      (s ∉ validSampleMethods → mkSolver s cfg = Except.error PyErr.valueError) := by
  unfold mkSolver
  by_cases h : s ∈ validSampleMethods <;> simp [h]

/-- Witness for C8: `"neighbors"` is rejected with `ValueError`,
`"perm"` is accepted. -/
theorem sample_method_validated_at_construction_witness :
    mkSolver "neighbors" cfgBase = Except.error PyErr.valueError ∧
      ∃ r, mkSolver "perm" cfgBase = Except.ok r :=
  ⟨(sample_method_validated_at_construction "neighbors" cfgBase).2 (by decide),
   (sample_method_validated_at_construction "perm" cfgBase).1.mpr (by decide)⟩

lemma runInnerBC_total {n D : ℕ} (M : Model n D) (cfg : FWConfig)
    (hM : OracleTotal M) :
    ∀ (ord : List (Fin n)) (s : BCState n D),
      (runInnerBC M cfg ord s).2 = none ∧
        (runInnerBC M cfg ord s).1.k = s.k + ord.length
  | [], s => by simp [runInnerBC]
  | i :: rest, s => by
      obtain ⟨⟨dpsi, loss⟩, hr⟩ := hM i s.w
      have hstep : (stepBC M cfg i s).2 = none ∧ (stepBC M cfg i s).1.k = s.k + 1 := by
        simp [stepBC, hr]
      rcases hs : stepBC M cfg i s with ⟨s', err⟩
      rw [hs] at hstep
      rcases err with _ | e
      · have ih := runInnerBC_total M cfg hM rest s'
        simp only [runInnerBC, hs]
        refine ⟨ih.1, ?_⟩
        rw [ih.2]
        have hk : s'.k = s.k + 1 := hstep.2
        simp only [List.length_cons]
        omega
      · exact absurd hstep.1 (Option.some_ne_none e)

lemma runPasses_cde_zero {n D : ℕ} (M : Model n D) (cfg : FWConfig)
    (ord : ℕ → List (Fin n)) (hc : cfg.checkDualEvery = 0) (hM : OracleTotal M)
    (hord : ∀ p, (ord p).length = n) :
    ∀ (fuel p : ℕ) (st : FWState n D),
      (runPasses M cfg ord fuel p st).2 = none ∧
        (runPasses M cfg ord fuel p st).1.hist = st.hist ∧
        (runPasses M cfg ord fuel p st).1.bc.k = st.bc.k + fuel * n
  | 0, p, st => by simp [runPasses]
  | fuel + 1, p, st => by
      have hin := runInnerBC_total M cfg hM (ord p) st.bc
      rcases hs : runInnerBC M cfg (ord p) st.bc with ⟨bc', err⟩
      rw [hs] at hin
      rcases err with _ | e
      · have hg : checkGuard cfg.checkDualEvery p = Except.ok false := by
          simp [checkGuard, hc]
        have ih := runPasses_cde_zero M cfg ord hc hM hord fuel (p + 1)
          { st with bc := bc' }
        simp only [runPasses, hs, hg]
        refine ⟨ih.1, ih.2.1, ?_⟩
        rw [ih.2.2]
        have hk : bc'.k = st.bc.k + n := by rw [hin.2, hord p]
        show bc'.k + fuel * n = st.bc.k + (fuel + 1) * n
        rw [hk]
        ring
      · exact absurd hin.1 (Option.some_ne_none e)

/-- C10: with `check_dual_every = 0`, the guard of source line 253
short-circuits to false without ever evaluating `p % 0` (so no
`ZeroDivisionError` can arise), the Duality Gap Monitor and the
held-out/training scoring are never invoked and nothing is appended to
any history log, no early termination on tolerance can happen, and the
block-coordinate loop runs all `max_iter` passes — the global step
counter advances by exactly `max_iter · n` (oracle succeeding
throughout, each pass visiting `n` samples). -/
theorem check_dual_every_zero_runs_all_passes {n D : ℕ} (M : Model n D)
    (cfg : FWConfig) (ord : ℕ → List (Fin n)) (hc : cfg.checkDualEvery = 0)
    (hM : OracleTotal M) (hord : ∀ p, (ord p).length = n) (fuel p : ℕ)
    (st : FWState n D) :
    checkGuard cfg.checkDualEvery p = Except.ok false ∧
      (runPasses M cfg ord fuel p st).2 = none ∧
      (runPasses M cfg ord fuel p st).1.hist = st.hist ∧
      (runPasses M cfg ord fuel p st).1.bc.k = st.bc.k + fuel * n := by
  exact ⟨by simp [checkGuard, hc],
    (runPasses_cde_zero M cfg ord hc hM hord fuel p st).1,
    (runPasses_cde_zero M cfg ord hc hM hord fuel p st).2.1,
    (runPasses_cde_zero M cfg ord hc hM hord fuel p st).2.2⟩

/-- Witness for C10: a concrete two-pass run with `check_dual_every = 0`
finishes without error, appends nothing, and takes both passes. -/
theorem check_dual_every_zero_runs_all_passes_witness :
    checkGuard cfgBase.checkDualEvery 0 = Except.ok false ∧
      (runPasses okModel cfgBase ordSeq 2 0 (fitInitState 1 objFresh)).2 = none ∧
      (runPasses okModel cfgBase ordSeq 2 0 (fitInitState 1 objFresh)).1.hist
        = (fitInitState 1 objFresh).hist ∧
      (runPasses okModel cfgBase ordSeq 2 0 (fitInitState 1 objFresh)).1.bc.k
        = (fitInitState 1 objFresh).bc.k + 2 * 1 :=
  check_dual_every_zero_runs_all_passes okModel cfgBase ordSeq rfl
    (fun _ _ => ⟨(vOne, 1), rfl⟩) (fun _ => rfl) 2 0 (fitInitState 1 objFresh)

lemma runPasses_first_check_no_test {n D : ℕ} (M : Model n D) (cfg : FWConfig)
    (ord : ℕ → List (Fin n)) (hc : cfg.checkDualEvery ≠ 0) (hM : OracleTotal M)
    (fuel : ℕ) (st : FWState n D) (ht : st.hasTest = false) :
    (runPasses M cfg ord (fuel + 1) 0 st).2 = some PyErr.attributeError := by
  have hin := runInnerBC_total M cfg hM (ord 0) st.bc
  rcases hs : runInnerBC M cfg (ord 0) st.bc with ⟨bc', err⟩
  rw [hs] at hin
  rcases err with _ | e
  · have hg : checkGuard cfg.checkDualEvery 0 = Except.ok true := by
      simp [checkGuard, pyMod, hc]
    have hd : (doCheck M cfg { st with bc := bc' }).2.1
        = some PyErr.attributeError := by
      simp [doCheck, calcDualGap, ht]
    rcases hdc : doCheck M cfg { st with bc := bc' } with ⟨st2, err2, early⟩
    rw [hdc] at hd
    simp only at hd
    subst hd
    simp only [runPasses, hs, hg, hdc]
  · exact absurd hin.1 (Option.some_ne_none e)

/-- C9: in block-coordinate mode with a nonzero checking cadence and at
least one pass, a `fit` on an instance on which `setTest` was never
called reaches the first convergence check (pass 0, whose index every
nonzero cadence divides) and raises `AttributeError` when it reads the
missing `testX_` attribute; the error propagates out of `fit`.
Registering held-out data beforehand is thus a hard precondition for
any fit that reaches a convergence check. -/
theorem fit_check_without_held_out_data_raises {n D : ℕ} (M : Model n D)
    (cfg : FWConfig) (ord : ℕ → List (Fin n)) (obj : FWObj D)
    (hb : cfg.batchMode = false) (hc : cfg.checkDualEvery ≠ 0)
    (hm : 1 ≤ cfg.maxIter) (ht : obj.hasTest = false) (hM : OracleTotal M) :
    (fitFW M cfg ord obj).2 = some PyErr.attributeError := by
  obtain ⟨fuel, hfuel⟩ : ∃ f, cfg.maxIter = f + 1 := ⟨cfg.maxIter - 1, by omega⟩
  have hdisp : (runDispatch M cfg ord (fitInitState n obj)).2
      = some PyErr.attributeError := by
    unfold runDispatch
    rw [hb]
    simp only [Bool.false_eq_true, if_false]
    rw [hfuel]
    exact runPasses_first_check_no_test M cfg ord hc hM fuel (fitInitState n obj) ht
  exact fitFW_propagates M cfg ord obj _ hdisp (by decide)

/-- Witness for C9: a concrete one-pass fit with `check_dual_every = 1`
and no registered held-out data raises `AttributeError`. -/
theorem fit_check_without_held_out_data_raises_witness :
    (fitFW okModel cfgCheck ordSeq objFresh).2 = some PyErr.attributeError :=
  fit_check_without_held_out_data_raises okModel cfgCheck ordSeq objFresh rfl
    (by decide) (by decide) rfl (fun _ _ => ⟨(vOne, 1), rfl⟩)
